import Mathlib

/-!
Verification of the CGATS-to-JSON converter (`cgatsToJson` repository).

The development shallowly embeds the parsing and enrichment logic of
`cgatsToJsonGUI.py` (functions `parse_descriptive_and_formats`,
`parse_rows`, `parse_cgats_text`, `to_json`, the enrichment block of
`App.process`) and the numeric-coercion helper `smart_convert` of
`cgatsToJson.py` (inner function of `convert_values`).

Conventions of the embedding:
* a text line is a `List Char` (named `Line`); the input of
  `parse_cgats_text` is the list of lines produced by Python's
  `str.splitlines` (line terminators already removed);
* Python dictionaries are association lists in insertion order;
  assigning to an existing key updates it in place, assigning a fresh
  key appends (`dictInsert`);
* character classes follow the ASCII behaviour of the Python string
  methods and regular expressions used by the source (`str.strip`,
  `str.upper`, `\d`, letters, digits, underscore, dot, slash, hyphen);
* the logging calls of the source are modelled by the `Log` variants of
  the parser, which return the produced log events next to the result.
-/

set_option maxRecDepth 4000

/-- A text line: the characters of one line of the input file. -/
abbrev Line : Type := List Char

/-- Python dictionary with `Line` keys, kept in insertion order. -/
abbrev Dict (β : Type) : Type := List (Line × β)

/-- The whitespace characters recognised by Python's `str.strip()` /
`str.split()` / `\s` (ASCII range). -/
def isPySpace (c : Char) : Bool :=
  c == ' ' || c == '\t' || c == '\n' || c == '\r' || c == '\x0b' || c == '\x0c'

/-- Python `str.strip()`: remove leading and trailing whitespace. -/
def pyStrip (l : Line) : Line :=
  ((l.dropWhile isPySpace).reverse.dropWhile isPySpace).reverse

/-- Python `str.upper()` (ASCII letters). -/
def pyUpper (l : Line) : Line :=
  l.map Char.toUpper

/-- Python `str.startswith(pat)`: the first argument is the pattern. -/
def pyStartsWith : Line → Line → Bool
  | [], _ => true
  | _ :: _, [] => false
  | p :: ps, c :: cs => p == c && pyStartsWith ps cs

/-- Accumulator loop of `str.split()` (split on whitespace runs,
dropping empty tokens). -/
def pySplitAux : Line → Line → List Line
  | [], acc => if acc.isEmpty then [] else [acc.reverse]
  | c :: cs, acc =>
    if isPySpace c then
      if acc.isEmpty then pySplitAux cs [] else acc.reverse :: pySplitAux cs []
    else pySplitAux cs (c :: acc)

/-- Python `str.split()` with no separator argument. -/
def pySplit (l : Line) : List Line :=
  pySplitAux l []

/-- Characters converted to a string literal's character list. -/
def strL (s : String) : Line :=
  s.toList

/-- Regex `COMMENT_RE = ^\s*(?:#|//|;|\*)` of `cgatsToJsonGUI.py`: the line,
after optional whitespace, begins with one of the comment introducers. -/
def isComment (l : Line) : Bool :=
  let s := l.dropWhile isPySpace
  pyStartsWith ['#'] s || pyStartsWith ['/', '/'] s ||
    pyStartsWith [';'] s || pyStartsWith ['*'] s

/-- Regex `WS_ONLY_RE = ^\s*$`. -/
def wsOnly (l : Line) : Bool :=
  l.all isPySpace

/-- The key character class letters, digits, underscore, dot, slash, hyphen of `CGATS_KV_RE`. -/
def isKeyChar (c : Char) : Bool :=
  c.isAlphanum || c == '_' || c == '.' || c == '/' || c == '-'

/-- Matching of `CGATS_KV_RE = ^\s*key-class run\s*[:=]\s*(.*?)\s*$`.
After optional leading whitespace the maximal run of key characters must
be non-empty and, after optional whitespace, be followed by `:` or `=`;
the captured value is the remainder with surrounding whitespace removed
(the lazy group together with the anchored `\s*$`). -/
def kvMatch (l : Line) : Option (Line × Line) :=
  let rest := l.dropWhile isPySpace
  let key := rest.takeWhile isKeyChar
  let afterKey := (rest.dropWhile isKeyChar).dropWhile isPySpace
  match afterKey with
  | [] => none
  | c :: cs =>
    if key.isEmpty = false && (c == ':' || c == '=') then some (key, pyStrip cs)
    else none

/-- Result record of `parse_cgats_text` (dataclass `ParseResult`). -/
structure ParseResult where
  descriptive : Dict Line
  keys : List Line
  rows : List (Dict Line)
deriving DecidableEq, Repr

/-- Python `d[k] = v`: update the existing binding in place, otherwise
append a new one. -/
def dictInsert {β : Type} (d : Dict β) (k : Line) (v : β) : Dict β :=
  if d.any (fun p => p.1 == k) then
    d.map (fun p => if p.1 = k then (k, v) else p)
  else d ++ [(k, v)]

/-- Python `k in d`. -/
def containsKey {β : Type} (d : Dict β) (k : Line) : Bool :=
  d.any (fun p => p.1 == k)

/-- Python `d.get(k)` / `d[k]` as an option. -/
def dictGet {β : Type} (d : Dict β) (k : Line) : Option β :=
  match d.find? (fun p => p.1 == k) with
  | some p => some p.2
  | none => none

/-- Python `d.setdefault(k, v)` (effect on the dictionary). -/
def setdefault {β : Type} (d : Dict β) (k : Line) (v : β) : Dict β :=
  if containsKey d k then d else d ++ [(k, v)]

/-- Python `dict(pairs)` / a dict comprehension over `pairs`:
left-to-right insertion, later occurrence of a key wins. -/
def dictOfPairs {β : Type} (ps : List (Line × β)) : Dict β :=
  ps.foldl (fun d p => dictInsert d p.1 p.2) []

/-- Mutable state of the header/format scan of
`parse_descriptive_and_formats`. -/
structure HFState where
  descriptive : Dict Line
  keys : List Line
  buffer_after_begin_data : List Line
  in_df : Bool
  in_data : Bool
deriving DecidableEq, Repr

/-- Initial scan state. -/
def initHF : HFState :=
  { descriptive := [], keys := [], buffer_after_begin_data := [],
    in_df := false, in_data := false }

/-- Function `iter_nonempty_lines`: strip trailing CR/LF of every line (after
`splitlines` this is the identity; empty lines are yielded as `""`). -/
def iter_nonempty_lines (lines : List Line) : List Line :=
  lines.map (fun raw =>
    let l := (raw.reverse.dropWhile (fun c => c == '\r' || c == '\n')).reverse
    if l.isEmpty then [] else l)

/-- One iteration of the loop body of `parse_descriptive_and_formats`. -/
def stepLine (st : HFState) (line : Line) : HFState :=
  let u := pyStrip line
  if !st.in_df && !st.in_data && (isComment u || wsOnly u) then st
  else if !st.in_df && !st.in_data then
    if pyStartsWith (strL "BEGIN_DATA_FORMAT") (pyUpper u) then
      { st with in_df := true }
    else if pyStartsWith (strL "BEGIN_DATA") (pyUpper u) then
      { st with in_data := true }
    else
      match kvMatch line with
      | some kv =>
        { st with descriptive :=
            dictInsert st.descriptive (pyUpper (pyStrip kv.1)) (pyStrip kv.2) }
      | none => st
  else if st.in_df && !st.in_data then
    if pyStartsWith (strL "END_DATA_FORMAT") (pyUpper u) then
      { st with in_df := false }
    else if pyStartsWith (strL "BEGIN_DATA") (pyUpper u) then
      { st with in_df := false, in_data := true }
    else if !u.isEmpty && !isComment u then
      let parts := (pySplit u).filter (fun p => !(pyStrip p).isEmpty)
      { st with keys := st.keys ++ parts.map (fun p => pyUpper (pyStrip p)) }
    else st
  else if st.in_data then
    { st with buffer_after_begin_data := st.buffer_after_begin_data ++ [line] }
  else st

/-- Function `parse_descriptive_and_formats` (the returned triple is the final
scan state). -/
def parse_descriptive_and_formats (lines : List Line) : HFState :=
  (iter_nonempty_lines lines).foldl stepLine initHF

/-- Function `parse_rows`: build one dictionary per data line, repairing the
column count against `keys`, stopping at `END_DATA`. -/
def parse_rows (after_begin_data_lines : List Line) (keys : List Line) :
    List (Dict Line) :=
  match after_begin_data_lines with
  | [] => []
  | line :: rest =>
    let u := pyStrip line
    if u.isEmpty then parse_rows rest keys
    else if pyStartsWith (strL "END_DATA") (pyUpper u) then []
    else if isComment u then parse_rows rest keys
    else
      let cols := pySplit u
      let cols2 :=
        if cols.length < keys.length then
          cols ++ List.replicate (keys.length - cols.length) []
        else if cols.length > keys.length then cols.take keys.length
        else cols
      dictOfPairs (keys.zip cols2) :: parse_rows rest keys

/-- The fallback column-inference loop of `parse_cgats_text`: find the
first usable buffered data line and synthesize keys `C1..Cn` from its
token count. -/
def inferKeys : List Line → List Line
  | [] => []
  | line :: rest =>
    let s := pyStrip line
    if !s.isEmpty && !isComment s && !pyStartsWith (strL "END_DATA") (pyUpper s) then
      (List.range (pySplit s).length).map (fun i => 'C' :: Nat.toDigits 10 (i + 1))
    else inferKeys rest

/-- Function `parse_cgats_text` over the input's line list. -/
def parse_cgats_text (lines : List Line) : ParseResult :=
  let st := parse_descriptive_and_formats lines
  let keys := if st.keys.isEmpty then inferKeys st.buffer_after_begin_data else st.keys
  { descriptive := st.descriptive,
    keys := keys,
    rows := parse_rows st.buffer_after_begin_data keys }

/-- Output payload `{"descriptive_data": …, "measurement_data": …}`. -/
structure Payload where
  descriptive_data : Dict Line
  measurement_data : List (Dict Line)
deriving DecidableEq, Repr

/-- Function `to_json`: stamp the measurement identifier onto a copy of every row. -/
def to_json (descriptive : Dict Line) (rows : List (Dict Line))
    (measurement_uuid : Line) : Payload :=
  { descriptive_data := descriptive,
    measurement_data :=
      rows.map (fun r => dictInsert r (strL "MEASUREMENT_ID") measurement_uuid) }

/-- Python `a or b` on strings (empty string is falsy). -/
def pyOr (a b : Line) : Line :=
  if a.isEmpty then b else a

/-- The enrichment block of `App.process` (lines 493–501 of
`cgatsToJsonGUI.py`): defaults for `MEASUREMENT_ID`, `PARSED_DATE`,
`PROJECT`, `TEMPLATE`, then the authoritative `MEASUREMENT_DATE`. -/
def enrich (desc : Dict Line)
    (measurement_uuid today projectVar templateVar mdate : Line) : Dict Line :=
  let d1 := setdefault desc (strL "MEASUREMENT_ID") measurement_uuid
  let d2 := setdefault d1 (strL "PARSED_DATE") today
  let project := pyStrip (pyOr projectVar (strL "NONE"))
  let template := pyStrip (pyOr templateVar (strL "NONE"))
  let d3 := setdefault d2 (strL "PROJECT")
    (if project.isEmpty then strL "NONE" else project)
  let d4 := setdefault d3 (strL "TEMPLATE")
    (if template.isEmpty then strL "NONE" else template)
  dictInsert d4 (strL "MEASUREMENT_DATE") mdate

/-- Parsing followed by enrichment and `to_json`, as performed by
`App.process` on a successfully read input. -/
def process_payload (lines : List Line)
    (measurement_uuid today projectVar templateVar mdate : Line) : Payload :=
  let result := parse_cgats_text lines
  to_json (enrich result.descriptive measurement_uuid today projectVar templateVar mdate)
    result.rows measurement_uuid

/-- Result of `smart_convert` of `cgatsToJson.py`: which branch fired,
with the (stripped) matched text. -/
inductive CellValue where
  | toFloat (s : Line)
  | toInt (s : Line)
  | asStr (s : Line)
deriving DecidableEq, Repr

/-- Sign prefix `[+-]?` — consume one optional sign. -/
def dropSign (l : Line) : Line :=
  match l with
  | c :: cs => if c == '+' || c == '-' then cs else l
  | [] => []

/-- Pattern `^[+-]?\d+$` (`int_pattern` of `smart_convert`, ASCII digits). -/
def intPattern (l : Line) : Bool :=
  let body := dropSign l
  !body.isEmpty && body.all Char.isDigit

/-- Pattern `^[+-]?(?:\d+\.\d*|\.\d+|\d+\.)$` (`float_pattern` of
`smart_convert`): one decimal point, digits elsewhere, at least one
digit-run next to the point. -/
def floatPattern (l : Line) : Bool :=
  let body := dropSign l
  let before := body.takeWhile (fun c => c != '.')
  match body.dropWhile (fun c => c != '.') with
  | '.' :: after =>
    before.all Char.isDigit && after.all Char.isDigit &&
      (!before.isEmpty || !after.isEmpty)
  | _ => false

/-- Function `smart_convert` applied to a string cell: strip, then classify
against the float pattern first, the int pattern second. -/
def smart_convert (value : Line) : CellValue :=
  let v := pyStrip value
  if floatPattern v then CellValue.toFloat v
  else if intPattern v then CellValue.toInt v
  else CellValue.asStr v

/-- Function `convert_values` of `cgatsToJson.py`: zip the keys with the
converted values into a dictionary. -/
def convert_values (key_array : List Line) (values : List Line) : Dict CellValue :=
  dictOfPairs (key_array.zip (values.map smart_convert))

/-- Classifier: did `smart_convert` coerce to int? -/
def isIntResult : CellValue → Bool
  | CellValue.toInt _ => true
  | _ => false

/-- Classifier: did `smart_convert` coerce to float? -/
def isFloatResult : CellValue → Bool
  | CellValue.toFloat _ => true
  | _ => false

/- Specification-side notions used to state the claims. -/

/-- A buffered data-section line that terminates row parsing:
its trimmed form starts (case-insensitively) with `END_DATA`. -/
def isEndMarker (l : Line) : Bool :=
  pyStartsWith (strL "END_DATA") (pyUpper (pyStrip l))

/-- A buffered data-section line that yields a row: neither blank nor a
comment. -/
def isDataRow (l : Line) : Bool :=
  !(pyStrip l).isEmpty && !isComment (pyStrip l)

/-- The buffered lines that produce rows: those before the first
`END_DATA` marker which are neither blank nor comments. -/
def eligibleLines (buffer : List Line) : List Line :=
  (buffer.takeWhile (fun l => !isEndMarker l)).filter isDataRow

/-- Repair a token list to exactly `n` cells: truncate beyond `n`, pad
with empty strings up to `n`. -/
def fitTo (n : Nat) (cols : List Line) : List Line :=
  cols.take n ++ List.replicate (n - cols.length) []

/-- The guard of the fallback column-inference loop: a buffered line
whose trimmed form is non-blank, not a comment and does not start with
`END_DATA` (case-insensitively). -/
def usableDataLine (l : Line) : Bool :=
  !(pyStrip l).isEmpty && !isComment (pyStrip l) &&
    !pyStartsWith (strL "END_DATA") (pyUpper (pyStrip l))

/-- Log events emitted through the `logger` argument of the parser
(`logger.debug` and `logger.warning` calls of `cgatsToJsonGUI.py`). -/
inductive LogEvent where
  | ignoringHeaderLine (line : Line)
  | noKeysFound
  | inferredColumns (n : Nat) (keys : List Line)
  | rowMismatch (ncols nkeys : Nat) (row : Line)
deriving DecidableEq, Repr

/-- Function `stepLine` together with the log events the iteration emits. -/
def stepLineLog (st : HFState) (line : Line) : HFState × List LogEvent :=
  let u := pyStrip line
  if !st.in_df && !st.in_data && (isComment u || wsOnly u) then (st, [])
  else if !st.in_df && !st.in_data then
    if pyStartsWith (strL "BEGIN_DATA_FORMAT") (pyUpper u) then
      ({ st with in_df := true }, [])
    else if pyStartsWith (strL "BEGIN_DATA") (pyUpper u) then
      ({ st with in_data := true }, [])
    else
      match kvMatch line with
      | some kv =>
        ({ st with descriptive :=
            dictInsert st.descriptive (pyUpper (pyStrip kv.1)) (pyStrip kv.2) }, [])
      | none => (st, [LogEvent.ignoringHeaderLine line])
  else if st.in_df && !st.in_data then
    if pyStartsWith (strL "END_DATA_FORMAT") (pyUpper u) then
      ({ st with in_df := false }, [])
    else if pyStartsWith (strL "BEGIN_DATA") (pyUpper u) then
      ({ st with in_df := false, in_data := true }, [])
    else if !u.isEmpty && !isComment u then
      let parts := (pySplit u).filter (fun p => !(pyStrip p).isEmpty)
      ({ st with keys := st.keys ++ parts.map (fun p => pyUpper (pyStrip p)) }, [])
    else (st, [])
  else if st.in_data then
    ({ st with buffer_after_begin_data := st.buffer_after_begin_data ++ [line] }, [])
  else (st, [])

/-- Function `parse_descriptive_and_formats` with its log. -/
def parse_descriptive_and_formats_log (lines : List Line) : HFState × List LogEvent :=
  (iter_nonempty_lines lines).foldl
    (fun acc l =>
      let r := stepLineLog acc.1 l
      (r.1, acc.2 ++ r.2))
    (initHF, [])

/-- Function `parse_rows` with its log (`logger.warning` on a column-count
mismatch; the row is still repaired and kept). -/
def parse_rows_log (after_begin_data_lines : List Line) (keys : List Line) :
    List (Dict Line) × List LogEvent :=
  match after_begin_data_lines with
  | [] => ([], [])
  | line :: rest =>
    let u := pyStrip line
    if u.isEmpty then parse_rows_log rest keys
    else if pyStartsWith (strL "END_DATA") (pyUpper u) then ([], [])
    else if isComment u then parse_rows_log rest keys
    else
      let cols := pySplit u
      let warn :=
        if cols.length ≠ keys.length then
          [LogEvent.rowMismatch cols.length keys.length u]
        else []
      let cols2 :=
        if cols.length < keys.length then
          cols ++ List.replicate (keys.length - cols.length) []
        else if cols.length > keys.length then cols.take keys.length
        else cols
      let next := parse_rows_log rest keys
      (dictOfPairs (keys.zip cols2) :: next.1, warn ++ next.2)

/-- The fallback inference loop with its log. -/
def inferKeysLog : List Line → List Line × List LogEvent
  | [] => ([], [])
  | line :: rest =>
    let s := pyStrip line
    if !s.isEmpty && !isComment s && !pyStartsWith (strL "END_DATA") (pyUpper s) then
      let n := (pySplit s).length
      let ks := (List.range n).map (fun i => 'C' :: Nat.toDigits 10 (i + 1))
      (ks, [LogEvent.inferredColumns n ks])
    else inferKeysLog rest

/-- Function `parse_cgats_text` with its log. -/
def parse_cgats_text_log (lines : List Line) : ParseResult × List LogEvent :=
  let pdf := parse_descriptive_and_formats_log lines
  let st := pdf.1
  let keys2 :=
    if st.keys.isEmpty then (inferKeysLog st.buffer_after_begin_data).1
    else st.keys
  let klog :=
    if st.keys.isEmpty then
      LogEvent.noKeysFound :: (inferKeysLog st.buffer_after_begin_data).2
    else []
  let rl := parse_rows_log st.buffer_after_begin_data keys2
  ({ descriptive := st.descriptive, keys := keys2, rows := rl.1 },
   pdf.2 ++ klog ++ rl.2)

/-! ## Helper lemmas about the string primitives -/

theorem takeWhile_append_of_all {α : Type} (p : α → Bool) {a : List α} (b : List α)
    (h : a.all p = true) : (a ++ b).takeWhile p = a ++ b.takeWhile p := by
  induction a with
  | nil => simp
  | cons c cs ih =>
    simp only [List.all_cons, Bool.and_eq_true] at h
    simp [List.takeWhile_cons, h.1, ih h.2]

theorem dropWhile_append_of_all {α : Type} (p : α → Bool) {a : List α} (b : List α)
    (h : a.all p = true) : (a ++ b).dropWhile p = b.dropWhile p := by
  induction a with
  | nil => simp
  | cons c cs ih =>
    simp only [List.all_cons, Bool.and_eq_true] at h
    simp [List.dropWhile_cons, h.1, ih h.2]

theorem dropWhile_head_false {α : Type} (p : α → Bool) (l : List α) (c : α) (t : List α)
    (h : l.dropWhile p = c :: t) : p c = false := by
  induction l with
  | nil => simp at h
  | cons a l ih =>
    rw [List.dropWhile_cons] at h
    by_cases hpa : p a = true
    · rw [if_pos hpa] at h
      exact ih h
    · rw [if_neg hpa] at h
      injection h with h1 _
      rw [← h1]
      simpa using hpa

theorem dropWhile_all_false {α : Type} (p : α → Bool) (m : List α)
    (h : ∀ x ∈ m, p x = false) : m.dropWhile p = m := by
  cases m with
  | nil => rfl
  | cons a t =>
    rw [List.dropWhile_cons, if_neg]
    simp [h a (by simp)]

theorem pyStrip_head_false (l : Line) (c : Char) (t : Line) (h : pyStrip l = c :: t) :
    isPySpace c = false := by
  have hsplit := List.takeWhile_append_dropWhile isPySpace (l.dropWhile isPySpace).reverse
  have hd : l.dropWhile isPySpace =
      ((l.dropWhile isPySpace).reverse.dropWhile isPySpace).reverse ++
        ((l.dropWhile isPySpace).reverse.takeWhile isPySpace).reverse := by
    conv_lhs => rw [← List.reverse_reverse (l.dropWhile isPySpace), ← hsplit]
    rw [List.reverse_append]
  rw [show ((l.dropWhile isPySpace).reverse.dropWhile isPySpace).reverse = pyStrip l from rfl,
    h, List.cons_append] at hd
  exact dropWhile_head_false isPySpace l c _ hd

theorem pyStrip_all_space (l : Line) (h : l.all isPySpace = true) : pyStrip l = [] := by
  have h1 : l.dropWhile isPySpace = [] := by
    rw [List.dropWhile_eq_nil_iff]
    intro x hx
    exact (List.all_eq_true.mp h) x hx
  simp [pyStrip, h1]

theorem pyStrip_no_space (l : Line) (h : ∀ x ∈ l, isPySpace x = false) : pyStrip l = l := by
  have h1 : l.dropWhile isPySpace = l := dropWhile_all_false _ _ h
  have h2 : l.reverse.dropWhile isPySpace = l.reverse :=
    dropWhile_all_false _ _ (fun x hx => h x (List.mem_reverse.mp hx))
  simp [pyStrip, h1, h2]

theorem pyStrip_shape (c : Char) (mid : Line) (d : Char) (w : Line)
    (hc : isPySpace c = false) (hd : isPySpace d = false)
    (hw : w.all isPySpace = true) :
    pyStrip (c :: mid ++ d :: w) = c :: mid ++ [d] := by
  have h1 : (c :: mid ++ d :: w).dropWhile isPySpace = c :: mid ++ d :: w := by
    rw [List.cons_append, List.dropWhile_cons, if_neg (by simp [hc])]
  have hrev : (c :: mid ++ d :: w).reverse = w.reverse ++ d :: (mid.reverse ++ [c]) := by
    simp
  have h2 : (c :: mid ++ d :: w).reverse.dropWhile isPySpace = d :: (mid.reverse ++ [c]) := by
    rw [hrev, dropWhile_append_of_all isPySpace _ (by simpa using hw),
      List.dropWhile_cons, if_neg (by simp [hd])]
  unfold pyStrip
  rw [h1, h2]
  simp

theorem pyStartsWith_append_left (a b s : Line) (h : pyStartsWith (a ++ b) s = true) :
    pyStartsWith a s = true := by
  induction a generalizing s with
  | nil => rfl
  | cons p ps ih =>
    cases s with
    | nil => simp [pyStartsWith] at h
    | cons c cs =>
      simp only [List.cons_append, pyStartsWith, Bool.and_eq_true] at h ⊢
      exact ⟨h.1, ih cs h.2⟩

theorem pyStartsWith_upper_head (p : Char) (ps : Line) (u : Line)
    (h : pyStartsWith (p :: ps) (pyUpper u) = true) :
    ∃ c cs, u = c :: cs ∧ Char.toUpper c = p := by
  cases u with
  | nil => simp [pyUpper, pyStartsWith] at h
  | cons c cs =>
    refine ⟨c, cs, rfl, ?_⟩
    simp only [pyUpper, List.map_cons, pyStartsWith, Bool.and_eq_true, beq_iff_eq] at h
    exact h.1.symm

theorem pyStartsWith_head_ne (p q : Char) (ps qs : Line) (s : Line) (hne : q ≠ p)
    (h : pyStartsWith (p :: ps) s = true) : pyStartsWith (q :: qs) s = false := by
  cases s with
  | nil => simp [pyStartsWith] at h
  | cons c cs =>
    simp only [pyStartsWith, Bool.and_eq_true, beq_iff_eq] at h
    have : q ≠ c := h.1 ▸ hne
    simp [pyStartsWith, beq_eq_false_iff_ne.mpr this]

theorem upper_B_not_comment_ws (c : Char) (cs : Line) (h : Char.toUpper c = 'B') :
    (isComment (c :: cs) || wsOnly (c :: cs)) = false := by
  have hb : ∀ b : Char, Char.toUpper b ≠ 'B' → c ≠ b := by
    intro b hub hcb
    exact hub (by rw [← hcb]; exact h)
  have h1 : isPySpace c = false := by
    simp [isPySpace, beq_eq_false_iff_ne.mpr (hb ' ' (by decide)),
      beq_eq_false_iff_ne.mpr (hb '\t' (by decide)),
      beq_eq_false_iff_ne.mpr (hb '\n' (by decide)),
      beq_eq_false_iff_ne.mpr (hb '\r' (by decide)),
      beq_eq_false_iff_ne.mpr (hb '\x0b' (by decide)),
      beq_eq_false_iff_ne.mpr (hb '\x0c' (by decide))]
  have e1 : ('#' == c) = false := beq_eq_false_iff_ne.mpr (Ne.symm (hb '#' (by decide)))
  have e2 : ('/' == c) = false := beq_eq_false_iff_ne.mpr (Ne.symm (hb '/' (by decide)))
  have e3 : (';' == c) = false := beq_eq_false_iff_ne.mpr (Ne.symm (hb ';' (by decide)))
  have e4 : ('*' == c) = false := beq_eq_false_iff_ne.mpr (Ne.symm (hb '*' (by decide)))
  simp [isComment, wsOnly, List.dropWhile_cons, h1, pyStartsWith, e1, e2, e3, e4]

/-! ## Helper lemmas about the dictionary model -/

theorem containsKey_iff_mem {β : Type} (d : Dict β) (k : Line) :
    containsKey d k = true ↔ k ∈ d.map Prod.fst := by
  simp only [containsKey, List.any_eq_true, beq_iff_eq, List.mem_map]

theorem containsKey_append {β : Type} (d e : Dict β) (k : Line) :
    containsKey (d ++ e) k = (containsKey d k || containsKey e k) := by
  simp [containsKey, List.any_append]

theorem dictInsert_not_mem {β : Type} (d : Dict β) (k : Line) (v : β)
    (h : containsKey d k = false) : dictInsert d k v = d ++ [(k, v)] := by
  unfold dictInsert
  have h' : (d.any fun p => p.1 == k) = false := h
  rw [h']
  simp

theorem foldl_dictInsert_nodup {β : Type} (ps : List (Line × β)) (d : Dict β)
    (hd : ∀ k ∈ ps.map Prod.fst, containsKey d k = false)
    (hp : (ps.map Prod.fst).Nodup) :
    ps.foldl (fun d p => dictInsert d p.1 p.2) d = d ++ ps := by
  induction ps generalizing d with
  | nil => simp
  | cons p ps ih =>
    simp only [List.map_cons, List.nodup_cons] at hp
    have h1 : containsKey d p.1 = false :=
      hd p.1 (by rw [List.map_cons]; exact List.mem_cons_self _ _)
    have hd2 : ∀ k ∈ ps.map Prod.fst, containsKey (d ++ [(p.1, p.2)]) k = false := by
      intro k hk
      have hkd : containsKey d k = false :=
        hd k (by rw [List.map_cons]; exact List.mem_cons_of_mem _ hk)
      have hkp : (p.1 == k) = false :=
        beq_eq_false_iff_ne.mpr (fun he => hp.1 (he ▸ hk))
      rw [containsKey_append, hkd]
      simp [containsKey, hkp]
    rw [List.foldl_cons, dictInsert_not_mem d p.1 p.2 h1,
      ih (d ++ [(p.1, p.2)]) hd2 hp.2]
    simp

theorem dictOfPairs_nodup {β : Type} (ps : List (Line × β))
    (hp : (ps.map Prod.fst).Nodup) : dictOfPairs ps = ps := by
  unfold dictOfPairs
  rw [foldl_dictInsert_nodup ps [] (fun k _ => rfl) hp]
  simp

/-! ## Characterization of the row parser -/

theorem fitTo_length (n : Nat) (cols : List Line) : (fitTo n cols).length = n := by
  simp only [fitTo, List.length_append, List.length_take, List.length_replicate]
  omega

theorem codeFit_eq_fitTo (keys cols : List Line) :
    (if cols.length < keys.length then
        cols ++ List.replicate (keys.length - cols.length) ([] : Line)
      else if cols.length > keys.length then cols.take keys.length
      else cols) = fitTo keys.length cols := by
  unfold fitTo
  by_cases h1 : cols.length < keys.length
  · rw [if_pos h1, List.take_of_length_le (Nat.le_of_lt h1)]
  · rw [if_neg h1]
    by_cases h2 : cols.length > keys.length
    · rw [if_pos h2, show keys.length - cols.length = 0 from by omega]
      simp
    · rw [if_neg h2, show keys.length - cols.length = 0 from by omega,
        List.take_of_length_le (by omega)]
      simp

theorem bool_not_true {b : Bool} (h : ¬(b = true)) : b = false := by
  cases b
  · rfl
  · exact absurd rfl h

theorem parse_rows_cons (line : Line) (rest keys : List Line) :
    parse_rows (line :: rest) keys =
      if (pyStrip line).isEmpty then parse_rows rest keys
      else if isEndMarker line then []
      else if isComment (pyStrip line) then parse_rows rest keys
      else dictOfPairs (keys.zip (fitTo keys.length (pySplit (pyStrip line)))) ::
        parse_rows rest keys := by
  conv_lhs => simp only [parse_rows]
  rw [codeFit_eq_fitTo]
  rfl

theorem eligibleLines_cons (line : Line) (rest : List Line) :
    eligibleLines (line :: rest) =
      if isEndMarker line then []
      else if isDataRow line then line :: eligibleLines rest
      else eligibleLines rest := by
  simp only [eligibleLines, List.takeWhile_cons]
  by_cases h : isEndMarker line
  · simp [h]
  · by_cases h2 : isDataRow line <;>
      simp [h, h2, List.filter_cons]

theorem blank_not_end (line : Line) (h : (pyStrip line).isEmpty = true) :
    isEndMarker line = false := by
  rw [isEndMarker, List.isEmpty_iff.mp h]
  decide

theorem parse_rows_eq_eligible (buffer keys : List Line) :
    parse_rows buffer keys =
      (eligibleLines buffer).map
        (fun l => dictOfPairs (keys.zip (fitTo keys.length (pySplit (pyStrip l))))) := by
  induction buffer with
  | nil => rfl
  | cons line rest ih =>
    rw [parse_rows_cons, eligibleLines_cons]
    by_cases h1 : (pyStrip line).isEmpty = true
    · have hend : isEndMarker line = false := blank_not_end line h1
      have hdr : isDataRow line = false := by simp [isDataRow, h1]
      rw [if_pos h1, if_neg (by simp [hend]), if_neg (by simp [hdr])]
      exact ih
    · have h1' : (pyStrip line).isEmpty = false := bool_not_true h1
      rw [if_neg h1]
      by_cases h2 : isEndMarker line = true
      · rw [if_pos h2, if_pos h2]
        simp
      · rw [if_neg h2, if_neg h2]
        by_cases h3 : isComment (pyStrip line) = true
        · have hdr : isDataRow line = false := by simp [isDataRow, h3]
          rw [if_pos h3, if_neg (by simp [hdr])]
          exact ih
        · have h3' : isComment (pyStrip line) = false := bool_not_true h3
          have hdr : isDataRow line = true := by simp [isDataRow, h1', h3']
          rw [if_neg h3, if_pos hdr, List.map_cons, ih]

/-- Claim C4: during row parsing, a buffered line whose trimmed form
starts case-insensitively with `END_DATA` stops the parse: the rows
depend only on the buffered lines strictly before the first such line. -/
theorem claim_C4 (after_begin_data_lines keys : List Line) :
    parse_rows after_begin_data_lines keys =
      parse_rows (after_begin_data_lines.takeWhile (fun l => !isEndMarker l)) keys := by
  induction after_begin_data_lines with
  | nil => rfl
  | cons line rest ih =>
    rw [List.takeWhile_cons]
    by_cases hend : isEndMarker line = true
    · rw [hend]
      simp only [Bool.not_true, if_false]
      have hb : (pyStrip line).isEmpty = false := by
        cases he : (pyStrip line).isEmpty
        · rfl
        · exact absurd (blank_not_end line he) (by simp [hend])
      rw [parse_rows_cons, if_neg (by simp [hb]), if_pos hend]
      rfl
    · have hend' : isEndMarker line = false := bool_not_true hend
      rw [hend']
      simp only [Bool.not_false, if_true]
      rw [parse_rows_cons, parse_rows_cons, ih]

/-! ## Claim C2: row repair -/

/-- Claim C2 counterexample: the claim "every row in the parse result
has exactly `len(keys)` entries" fails when the data-format section
declares a duplicated key: the row dictionary collapses the duplicate,
so the single data row has 1 entry while `keys` has length 2. -/
theorem claim_C2_counterexample :
    (parse_cgats_text
        [strL "BEGIN_DATA_FORMAT", strL "A A", strL "END_DATA_FORMAT",
         strL "BEGIN_DATA", strL "x y", strL "END_DATA"]).keys.length = 2 ∧
    (parse_cgats_text
        [strL "BEGIN_DATA_FORMAT", strL "A A", strL "END_DATA_FORMAT",
         strL "BEGIN_DATA", strL "x y", strL "END_DATA"]).rows.map List.length = [1] := by
  decide

/-- Claim C2 (amended): when the declared keys are pairwise distinct,
every parsed row has exactly `len(keys)` entries; each eligible data
line (non-blank, non-comment, before the first `END_DATA`) produces
exactly one row, its tokens truncated to the first `len(keys)` and
padded with trailing empty-string cells up to `len(keys)`; no data line
is rejected for a count mismatch. -/
theorem claim_C2_amended (after_begin_data_lines keys : List Line)
    (hn : keys.Nodup) :
    parse_rows after_begin_data_lines keys =
      (eligibleLines after_begin_data_lines).map
        (fun l => keys.zip (fitTo keys.length (pySplit (pyStrip l)))) ∧
    ∀ row ∈ parse_rows after_begin_data_lines keys, row.length = keys.length := by
  have hz : ∀ l : Line,
      dictOfPairs (keys.zip (fitTo keys.length (pySplit (pyStrip l)))) =
        keys.zip (fitTo keys.length (pySplit (pyStrip l))) := by
    intro l
    apply dictOfPairs_nodup
    rw [List.map_fst_zip _ _ (le_of_eq (fitTo_length _ _).symm)]
    exact hn
  constructor
  · rw [parse_rows_eq_eligible]
    simp only [hz]
  · intro row hrow
    rw [parse_rows_eq_eligible] at hrow
    obtain ⟨l, _, he⟩ := List.mem_map.mp hrow
    rw [← he, hz l, List.length_zip, fitTo_length]
    simp

/-- Witness for the amended claim C2 at a concrete ragged input:
two keys, one long row and one short row. -/
theorem claim_C2_amended_witness :
    parse_rows [strL "1 2 3", strL "4", strL "END_DATA", strL "9 9"]
        [strL "A", strL "B"] =
      (eligibleLines [strL "1 2 3", strL "4", strL "END_DATA", strL "9 9"]).map
        (fun l => [strL "A", strL "B"].zip
          (fitTo [strL "A", strL "B"].length (pySplit (pyStrip l)))) ∧
    ∀ row ∈ parse_rows [strL "1 2 3", strL "4", strL "END_DATA", strL "9 9"]
        [strL "A", strL "B"], row.length = [strL "A", strL "B"].length :=
  claim_C2_amended [strL "1 2 3", strL "4", strL "END_DATA", strL "9 9"]
    [strL "A", strL "B"] (by decide)

/-! ## Claim C1: shape of the enriched payload -/

/-- Claim C1: for an input whose resolved column keys are pairwise
distinct and do not contain `MEASUREMENT_ID` (as any well-formed
declaration does), the payload produced by parsing plus enrichment has
one `measurement_data` entry per eligible data line, and every entry is
a mapping whose keys are exactly the declared columns followed by
`MEASUREMENT_ID` — `N + 1` keys in total. -/
theorem claim_C1 (lines : List Line)
    (measurement_uuid today projectVar templateVar mdate : Line)
    (h1 : (parse_cgats_text lines).keys.Nodup)
    (h2 : strL "MEASUREMENT_ID" ∉ (parse_cgats_text lines).keys) :
    (process_payload lines measurement_uuid today projectVar templateVar
        mdate).measurement_data.length =
      (eligibleLines
        (parse_descriptive_and_formats lines).buffer_after_begin_data).length ∧
    ∀ row ∈ (process_payload lines measurement_uuid today projectVar templateVar
        mdate).measurement_data,
      row.map Prod.fst = (parse_cgats_text lines).keys ++ [strL "MEASUREMENT_ID"] ∧
      row.length = (parse_cgats_text lines).keys.length + 1 := by
  have hrows : (parse_cgats_text lines).rows =
      parse_rows (parse_descriptive_and_formats lines).buffer_after_begin_data
        ((parse_cgats_text lines).keys) := rfl
  have hmd : (process_payload lines measurement_uuid today projectVar templateVar
        mdate).measurement_data =
      (parse_cgats_text lines).rows.map
        (fun r => dictInsert r (strL "MEASUREMENT_ID") measurement_uuid) := rfl
  constructor
  · rw [hmd, List.length_map, hrows, parse_rows_eq_eligible, List.length_map]
  · intro row hrow
    rw [hmd] at hrow
    obtain ⟨row0, h0, heq⟩ := List.mem_map.mp hrow
    rw [hrows, parse_rows_eq_eligible] at h0
    obtain ⟨l, _, he0⟩ := List.mem_map.mp h0
    have hfit : (fitTo (parse_cgats_text lines).keys.length
        (pySplit (pyStrip l))).length = (parse_cgats_text lines).keys.length :=
      fitTo_length _ _
    have hrow0 : row0 = (parse_cgats_text lines).keys.zip
        (fitTo (parse_cgats_text lines).keys.length (pySplit (pyStrip l))) := by
      rw [← he0]
      apply dictOfPairs_nodup
      rw [List.map_fst_zip _ _ (le_of_eq hfit.symm)]
      exact h1
    have hfst : row0.map Prod.fst = (parse_cgats_text lines).keys := by
      rw [hrow0]
      exact List.map_fst_zip _ _ (le_of_eq hfit.symm)
    have hcont : containsKey row0 (strL "MEASUREMENT_ID") = false := by
      cases hc : containsKey row0 (strL "MEASUREMENT_ID")
      · rfl
      · exact absurd ((containsKey_iff_mem _ _).mp hc) (by rw [hfst]; exact h2)
    have hins : dictInsert row0 (strL "MEASUREMENT_ID") measurement_uuid =
        row0 ++ [(strL "MEASUREMENT_ID", measurement_uuid)] :=
      dictInsert_not_mem _ _ _ hcont
    constructor
    · rw [← heq, hins, List.map_append, hfst]
      rfl
    · rw [← heq, hins, List.length_append, hrow0, List.length_zip, hfit]
      simp

/-- Witness for claim C1 at the specification's end-to-end example
(four declared columns, one data row). -/
theorem claim_C1_witness :
    (process_payload
        [strL "ORIGINATOR: TestLab", strL "BEGIN_DATA_FORMAT",
         strL "SAMPLE_ID LAB_L LAB_A LAB_B", strL "END_DATA_FORMAT",
         strL "BEGIN_DATA", strL "1 50.0 0.1 -0.2", strL "END_DATA"]
        (strL "uuid-1") (strL "2026-10-12") (strL "P") (strL "T")
        (strL "2026-10-12")).measurement_data.length =
      (eligibleLines
        (parse_descriptive_and_formats
          [strL "ORIGINATOR: TestLab", strL "BEGIN_DATA_FORMAT",
           strL "SAMPLE_ID LAB_L LAB_A LAB_B", strL "END_DATA_FORMAT",
           strL "BEGIN_DATA", strL "1 50.0 0.1 -0.2",
           strL "END_DATA"]).buffer_after_begin_data).length ∧
    ∀ row ∈ (process_payload
        [strL "ORIGINATOR: TestLab", strL "BEGIN_DATA_FORMAT",
         strL "SAMPLE_ID LAB_L LAB_A LAB_B", strL "END_DATA_FORMAT",
         strL "BEGIN_DATA", strL "1 50.0 0.1 -0.2", strL "END_DATA"]
        (strL "uuid-1") (strL "2026-10-12") (strL "P") (strL "T")
        (strL "2026-10-12")).measurement_data,
      row.map Prod.fst =
        (parse_cgats_text
          [strL "ORIGINATOR: TestLab", strL "BEGIN_DATA_FORMAT",
           strL "SAMPLE_ID LAB_L LAB_A LAB_B", strL "END_DATA_FORMAT",
           strL "BEGIN_DATA", strL "1 50.0 0.1 -0.2", strL "END_DATA"]).keys ++
          [strL "MEASUREMENT_ID"] ∧
      row.length =
        (parse_cgats_text
          [strL "ORIGINATOR: TestLab", strL "BEGIN_DATA_FORMAT",
           strL "SAMPLE_ID LAB_L LAB_A LAB_B", strL "END_DATA_FORMAT",
           strL "BEGIN_DATA", strL "1 50.0 0.1 -0.2",
           strL "END_DATA"]).keys.length + 1 :=
  claim_C1
    [strL "ORIGINATOR: TestLab", strL "BEGIN_DATA_FORMAT",
     strL "SAMPLE_ID LAB_L LAB_A LAB_B", strL "END_DATA_FORMAT",
     strL "BEGIN_DATA", strL "1 50.0 0.1 -0.2", strL "END_DATA"]
    (strL "uuid-1") (strL "2026-10-12") (strL "P") (strL "T") (strL "2026-10-12")
    (by decide) (by decide)

/-! ## Claims C3 and C9: fallback column inference -/

theorem usableDataLine_def (l : Line) :
    (!(pyStrip l).isEmpty && !isComment (pyStrip l) &&
      !pyStartsWith (strL "END_DATA") (pyUpper (pyStrip l))) = usableDataLine l := rfl

theorem inferKeys_eq_find (buf : List Line) :
    inferKeys buf =
      (match buf.find? usableDataLine with
       | some l => (List.range (pySplit (pyStrip l)).length).map
           (fun i => 'C' :: Nat.toDigits 10 (i + 1))
       | none => []) := by
  induction buf with
  | nil => rfl
  | cons line rest ih =>
    conv_lhs => simp only [inferKeys]
    rw [usableDataLine_def]
    by_cases h : usableDataLine line = true
    · rw [if_pos h, List.find?_cons, h]
    · have h' : usableDataLine line = false := bool_not_true h
      rw [if_neg h, List.find?_cons, h', ih]

/-- Claim C3: when the header/format pass yields no keys, the parser
synthesizes positional keys `C1..Cn` from the token count `n` of the
first buffered data-section line that is non-blank, not a comment and
does not start with `END_DATA`; with no such line the keys stay empty. -/
theorem claim_C3 (lines : List Line)
    (h : (parse_descriptive_and_formats lines).keys = []) :
    (parse_cgats_text lines).keys =
      (match ((parse_descriptive_and_formats lines).buffer_after_begin_data).find?
          usableDataLine with
       | some l => (List.range (pySplit (pyStrip l)).length).map
           (fun i => 'C' :: Nat.toDigits 10 (i + 1))
       | none => []) := by
  have hb : (parse_descriptive_and_formats lines).keys.isEmpty = true := by
    rw [h]
    rfl
  have hk : (parse_cgats_text lines).keys =
      inferKeys (parse_descriptive_and_formats lines).buffer_after_begin_data := by
    show (if (parse_descriptive_and_formats lines).keys.isEmpty then
        inferKeys (parse_descriptive_and_formats lines).buffer_after_begin_data
      else (parse_descriptive_and_formats lines).keys) = _
    rw [hb]
    rfl
  rw [hk, inferKeys_eq_find]

/-- Witness for claim C3: a file with `BEGIN_DATA`/`END_DATA`, no
format block, and a first data line of 5 tokens infers `C1..C5`. -/
theorem claim_C3_witness :
    (parse_cgats_text [strL "BEGIN_DATA", strL "11 22 33 44 55",
        strL "END_DATA"]).keys =
      [strL "C1", strL "C2", strL "C3", strL "C4", strL "C5"] :=
  (claim_C3 [strL "BEGIN_DATA", strL "11 22 33 44 55", strL "END_DATA"]
    (by decide)).trans (by decide)

theorem pySplitAux_ne_nil (l : Line) (acc : Line) (h : acc.isEmpty = false) :
    pySplitAux l acc ≠ [] := by
  induction l generalizing acc with
  | nil =>
    simp only [pySplitAux, h]
    simp
  | cons c cs ih =>
    simp only [pySplitAux]
    by_cases hc : isPySpace c = true
    · rw [if_pos hc, h]
      simp
    · rw [if_neg hc]
      exact ih (c :: acc) rfl

theorem pySplit_strip_ne_nil (line : Line) (h : (pyStrip line).isEmpty = false) :
    pySplit (pyStrip line) ≠ [] := by
  obtain ⟨c, t, he⟩ : ∃ c t, pyStrip line = c :: t := by
    cases hs : pyStrip line
    · rw [hs] at h
      exact absurd h (by decide)
    · exact ⟨_, _, rfl⟩
  have hc : isPySpace c = false := pyStrip_head_false line c t he
  rw [he]
  show pySplitAux (c :: t) [] ≠ []
  simp only [pySplitAux, hc]
  simp only [if_false, Bool.false_eq_true]
  exact pySplitAux_ne_nil t [c] rfl

theorem inferKeys_nil (buf : List Line) (h : inferKeys buf = []) :
    ∀ l ∈ buf, usableDataLine l = false := by
  induction buf with
  | nil => simp
  | cons line rest ih =>
    intro l hl
    by_cases hu : usableDataLine line = true
    · exfalso
      have he : inferKeys (line :: rest) =
          (List.range (pySplit (pyStrip line)).length).map
            (fun i => 'C' :: Nat.toDigits 10 (i + 1)) := by
        conv_lhs => simp only [inferKeys]
        rw [usableDataLine_def, if_pos hu]
      rw [he] at h
      have hlen : (pySplit (pyStrip line)).length = 0 := by
        have := congrArg List.length h
        simpa using this
      have hne : (pyStrip line).isEmpty = false := by
        have : (!(pyStrip line).isEmpty) = true := by
          have hu' := hu
          simp only [usableDataLine, Bool.and_eq_true] at hu'
          exact hu'.1.1
        simpa using this
      exact pySplit_strip_ne_nil line hne (List.length_eq_zero.mp hlen)
    · rcases List.mem_cons.mp hl with rfl | hl2
      · exact bool_not_true hu
      · have hr : inferKeys rest = [] := by
          have e : inferKeys (line :: rest) = inferKeys rest := by
            conv_lhs => simp only [inferKeys]
            rw [usableDataLine_def]
            exact if_neg hu
          rw [← e]
          exact h
        exact ih hr l hl2

theorem usable_eq_dataRow_and_not_end (l : Line) :
    usableDataLine l = (isDataRow l && !isEndMarker l) := rfl

theorem eligibleLines_eq_nil (buf : List Line)
    (h : ∀ l ∈ buf, usableDataLine l = false) : eligibleLines buf = [] := by
  induction buf with
  | nil => rfl
  | cons line rest ih =>
    rw [eligibleLines_cons]
    have hu := h line (by simp)
    by_cases he : isEndMarker line = true
    · rw [if_pos he]
    · have he' : isEndMarker line = false := bool_not_true he
      rw [if_neg he]
      have hdr : isDataRow line = false := by
        rw [usable_eq_dataRow_and_not_end, he'] at hu
        simpa using hu
      rw [if_neg (by simp [hdr])]
      exact ih (fun l hl => h l (by simp [hl]))

/-- Claim C9: if the resolved key list is empty (fallback inference
found no eligible data line), then no rows are produced, and indeed
every buffered data-section line is blank, a comment, or starts with
`END_DATA` case-insensitively. -/
theorem claim_C9 (lines : List Line)
    (h : (parse_cgats_text lines).keys = []) :
    (parse_cgats_text lines).rows = [] ∧
    ∀ l ∈ (parse_descriptive_and_formats lines).buffer_after_begin_data,
      (pyStrip l).isEmpty = true ∨ isComment (pyStrip l) = true ∨
        pyStartsWith (strL "END_DATA") (pyUpper (pyStrip l)) = true := by
  have hst : (parse_descriptive_and_formats lines).keys = [] := by
    by_cases hke : (parse_descriptive_and_formats lines).keys.isEmpty = true
    · exact List.isEmpty_iff.mp hke
    · exfalso
      have hkeq : (parse_cgats_text lines).keys =
          (parse_descriptive_and_formats lines).keys := by
        show (if (parse_descriptive_and_formats lines).keys.isEmpty then
            inferKeys (parse_descriptive_and_formats lines).buffer_after_begin_data
          else (parse_descriptive_and_formats lines).keys) = _
        rw [bool_not_true hke]
        rfl
      rw [hkeq] at h
      rw [h] at hke
      exact hke rfl
  have hb : (parse_descriptive_and_formats lines).keys.isEmpty = true := by
    rw [hst]
    rfl
  have hinf : inferKeys (parse_descriptive_and_formats lines).buffer_after_begin_data
      = [] := by
    have hk : (parse_cgats_text lines).keys =
        inferKeys (parse_descriptive_and_formats lines).buffer_after_begin_data := by
      show (if (parse_descriptive_and_formats lines).keys.isEmpty then
          inferKeys (parse_descriptive_and_formats lines).buffer_after_begin_data
        else (parse_descriptive_and_formats lines).keys) = _
      rw [hb]
      rfl
    rw [← hk]
    exact h
  have husable := inferKeys_nil _ hinf
  constructor
  · have hrows : (parse_cgats_text lines).rows =
        parse_rows (parse_descriptive_and_formats lines).buffer_after_begin_data
          ((parse_cgats_text lines).keys) := rfl
    rw [hrows, parse_rows_eq_eligible, eligibleLines_eq_nil _ husable]
    rfl
  · intro l hl
    have hu := husable l hl
    by_cases e1 : (pyStrip l).isEmpty = true
    · exact Or.inl e1
    · by_cases e2 : isComment (pyStrip l) = true
      · exact Or.inr (Or.inl e2)
      · by_cases e3 : pyStartsWith (strL "END_DATA") (pyUpper (pyStrip l)) = true
        · exact Or.inr (Or.inr e3)
        · exfalso
          have : usableDataLine l = true := by
            simp [usableDataLine, bool_not_true e1, bool_not_true e2, bool_not_true e3]
          rw [this] at hu
          exact absurd hu (by decide)

/-! ## Claim C7: enrichment defaults are idempotent -/

theorem dictGet_append_single {β : Type} (d : Dict β) (k k' : Line) (v : β)
    (h : k' ≠ k) : dictGet (d ++ [(k, v)]) k' = dictGet d k' := by
  induction d with
  | nil =>
    unfold dictGet
    rw [List.nil_append, List.find?_cons]
    have e : (k == k') = false := beq_eq_false_iff_ne.mpr (Ne.symm h)
    simp [e]
  | cons p d ih =>
    unfold dictGet at ih ⊢
    rw [List.cons_append, List.find?_cons, List.find?_cons]
    cases hq : (p.1 == k')
    · simp only []
      exact ih
    · rfl

theorem dictGet_map_update {β : Type} (d : Dict β) (k k' : Line) (v : β)
    (hne : k' ≠ k) :
    dictGet (d.map (fun p => if p.1 = k then (k, v) else p)) k' = dictGet d k' := by
  induction d with
  | nil => rfl
  | cons p d ih =>
    rw [List.map_cons]
    unfold dictGet at ih ⊢
    by_cases hp : p.1 = k
    · rw [if_pos hp, List.find?_cons, List.find?_cons]
      have e1 : ((k, v).1 == k') = false := beq_eq_false_iff_ne.mpr (Ne.symm hne)
      have e2 : (p.1 == k') = false := by
        rw [hp]
        exact beq_eq_false_iff_ne.mpr (Ne.symm hne)
      simp only [e1, e2]
      exact ih
    · rw [if_neg hp, List.find?_cons, List.find?_cons]
      cases hq : (p.1 == k')
      · simp only []
        exact ih
      · rfl

theorem dictInsert_get_ne {β : Type} (d : Dict β) (k k' : Line) (v : β)
    (hne : k' ≠ k) : dictGet (dictInsert d k v) k' = dictGet d k' := by
  unfold dictInsert
  by_cases ha : (d.any fun p => p.1 == k) = true
  · rw [if_pos ha]
    exact dictGet_map_update d k k' v hne
  · rw [if_neg ha]
    exact dictGet_append_single d k k' v hne

theorem contains_iff_get_some {β : Type} (d : Dict β) (k : Line) :
    containsKey d k = true ↔ ∃ v, dictGet d k = some v := by
  induction d with
  | nil => simp [containsKey, dictGet]
  | cons p d ih =>
    unfold containsKey dictGet at ih ⊢
    rw [List.any_cons, List.find?_cons]
    cases hq : (p.1 == k)
    · simp only [hq, Bool.false_or]
      exact ih
    · simp [hq]

theorem setdefault_get_of_contains {β : Type} (d : Dict β) (k k' : Line) (v : β)
    (h : containsKey d k' = true) :
    dictGet (setdefault d k v) k' = dictGet d k' ∧
      containsKey (setdefault d k v) k' = true := by
  unfold setdefault
  by_cases he : containsKey d k = true
  · rw [if_pos he]
    exact ⟨rfl, h⟩
  · rw [if_neg he]
    constructor
    · by_cases hk : k' = k
      · rw [hk] at h
        exact absurd h he
      · exact dictGet_append_single d k k' v hk
    · rw [containsKey_append, h]
      rfl

theorem enrich_get_of_contains (d : Dict Line) (u t pv tv m : Line) (K : Line)
    (hKm : K ≠ strL "MEASUREMENT_DATE") (hK : containsKey d K = true) :
    dictGet (enrich d u t pv tv m) K = dictGet d K ∧
      containsKey (enrich d u t pv tv m) K = true := by
  have s1 := setdefault_get_of_contains d (strL "MEASUREMENT_ID") K u hK
  have s2 := setdefault_get_of_contains _ (strL "PARSED_DATE") K t s1.2
  have s3 := setdefault_get_of_contains _ (strL "PROJECT") K
    (if (pyStrip (pyOr pv (strL "NONE"))).isEmpty then strL "NONE"
      else pyStrip (pyOr pv (strL "NONE"))) s2.2
  have s4 := setdefault_get_of_contains _ (strL "TEMPLATE") K
    (if (pyStrip (pyOr tv (strL "NONE"))).isEmpty then strL "NONE"
      else pyStrip (pyOr tv (strL "NONE"))) s3.2
  have hget : dictGet (enrich d u t pv tv m) K = dictGet d K := by
    show dictGet (dictInsert _ (strL "MEASUREMENT_DATE") m) K = dictGet d K
    rw [dictInsert_get_ne _ _ _ _ hKm]
    rw [s4.1, s3.1, s2.1, s1.1]
  refine ⟨hget, ?_⟩
  rcases (contains_iff_get_some d K).mp hK with ⟨w, hw⟩
  exact (contains_iff_get_some _ K).mpr ⟨w, by rw [hget]; exact hw⟩

/-- Claim C7: the enrichment step never alters `PROJECT`, `TEMPLATE` or
`PARSED_DATE` on a descriptive map that already contains them; in
particular applying enrichment a second time leaves the three fields
with the values they had before either application. -/
theorem claim_C7 (desc : Dict Line)
    (u1 t1 p1 te1 m1 u2 t2 p2 te2 m2 : Line)
    (hP : containsKey desc (strL "PROJECT") = true)
    (hT : containsKey desc (strL "TEMPLATE") = true)
    (hD : containsKey desc (strL "PARSED_DATE") = true) :
    dictGet (enrich (enrich desc u1 t1 p1 te1 m1) u2 t2 p2 te2 m2)
        (strL "PROJECT") = dictGet desc (strL "PROJECT") ∧
    dictGet (enrich (enrich desc u1 t1 p1 te1 m1) u2 t2 p2 te2 m2)
        (strL "TEMPLATE") = dictGet desc (strL "TEMPLATE") ∧
    dictGet (enrich (enrich desc u1 t1 p1 te1 m1) u2 t2 p2 te2 m2)
        (strL "PARSED_DATE") = dictGet desc (strL "PARSED_DATE") := by
  have e1P := enrich_get_of_contains desc u1 t1 p1 te1 m1 (strL "PROJECT")
    (by decide) hP
  have e1T := enrich_get_of_contains desc u1 t1 p1 te1 m1 (strL "TEMPLATE")
    (by decide) hT
  have e1D := enrich_get_of_contains desc u1 t1 p1 te1 m1 (strL "PARSED_DATE")
    (by decide) hD
  have e2P := enrich_get_of_contains _ u2 t2 p2 te2 m2 (strL "PROJECT")
    (by decide) e1P.2
  have e2T := enrich_get_of_contains _ u2 t2 p2 te2 m2 (strL "TEMPLATE")
    (by decide) e1T.2
  have e2D := enrich_get_of_contains _ u2 t2 p2 te2 m2 (strL "PARSED_DATE")
    (by decide) e1D.2
  exact ⟨e2P.1.trans e1P.1, e2T.1.trans e1T.1, e2D.1.trans e1D.1⟩

/-- Witness for claim C7: a concrete already-enriched descriptive map
is left unchanged on the three default fields by a double enrichment. -/
theorem claim_C7_witness :
    dictGet (enrich (enrich [(strL "PROJECT", strL "p0"),
        (strL "TEMPLATE", strL "t0"), (strL "PARSED_DATE", strL "2025-01-01")]
        (strL "u1") (strL "d1") (strL "pv1") (strL "tv1") (strL "m1"))
        (strL "u2") (strL "d2") (strL "pv2") (strL "tv2") (strL "m2"))
      (strL "PROJECT") =
      dictGet [(strL "PROJECT", strL "p0"), (strL "TEMPLATE", strL "t0"),
        (strL "PARSED_DATE", strL "2025-01-01")] (strL "PROJECT") ∧
    dictGet (enrich (enrich [(strL "PROJECT", strL "p0"),
        (strL "TEMPLATE", strL "t0"), (strL "PARSED_DATE", strL "2025-01-01")]
        (strL "u1") (strL "d1") (strL "pv1") (strL "tv1") (strL "m1"))
        (strL "u2") (strL "d2") (strL "pv2") (strL "tv2") (strL "m2"))
      (strL "TEMPLATE") =
      dictGet [(strL "PROJECT", strL "p0"), (strL "TEMPLATE", strL "t0"),
        (strL "PARSED_DATE", strL "2025-01-01")] (strL "TEMPLATE") ∧
    dictGet (enrich (enrich [(strL "PROJECT", strL "p0"),
        (strL "TEMPLATE", strL "t0"), (strL "PARSED_DATE", strL "2025-01-01")]
        (strL "u1") (strL "d1") (strL "pv1") (strL "tv1") (strL "m1"))
        (strL "u2") (strL "d2") (strL "pv2") (strL "tv2") (strL "m2"))
      (strL "PARSED_DATE") =
      dictGet [(strL "PROJECT", strL "p0"), (strL "TEMPLATE", strL "t0"),
        (strL "PARSED_DATE", strL "2025-01-01")] (strL "PARSED_DATE") :=
  claim_C7 [(strL "PROJECT", strL "p0"), (strL "TEMPLATE", strL "t0"),
      (strL "PARSED_DATE", strL "2025-01-01")]
    (strL "u1") (strL "d1") (strL "pv1") (strL "tv1") (strL "m1")
    (strL "u2") (strL "d2") (strL "pv2") (strL "tv2") (strL "m2")
    (by decide) (by decide) (by decide)

/-! ## Claim C8: numeric coercion of the consumer -/

theorem digits_no_dot (body : Line) (h : body.all Char.isDigit = true) :
    body.dropWhile (fun c => c != '.') = [] := by
  rw [List.dropWhile_eq_nil_iff]
  intro x hx
  have hd : x.isDigit = true := List.all_eq_true.mp h x hx
  by_cases he : x = '.'
  · rw [he] at hd
    exact absurd hd (by decide)
  · exact bne_iff_ne.mpr he

theorem int_not_float (l : Line) (h : intPattern l = true) :
    floatPattern l = false := by
  unfold intPattern at h
  rw [Bool.and_eq_true] at h
  simp only [floatPattern]
  rw [digits_no_dot (dropSign l) h.2]

/-- Claim C8: `smart_convert` coerces a (stripped) cell to a float
exactly when it matches the float pattern, to an int exactly when it
matches the int pattern (the two patterns are mutually exclusive), and
otherwise returns the stripped string unchanged. -/
theorem claim_C8 (value : Line) :
    isFloatResult (smart_convert value) = floatPattern (pyStrip value) ∧
    isIntResult (smart_convert value) = intPattern (pyStrip value) ∧
    (floatPattern (pyStrip value) = false → intPattern (pyStrip value) = false →
      smart_convert value = CellValue.asStr (pyStrip value)) := by
  unfold smart_convert
  by_cases hf : floatPattern (pyStrip value) = true
  · rw [if_pos hf]
    have hi : intPattern (pyStrip value) = false := by
      cases hint : intPattern (pyStrip value)
      · rfl
      · rw [int_not_float _ hint] at hf
        exact absurd hf (by decide)
    refine ⟨by rw [hf]; rfl, by rw [hi]; rfl, ?_⟩
    intro hff _
    rw [hff] at hf
    exact absurd hf (by decide)
  · have hf' : floatPattern (pyStrip value) = false := bool_not_true hf
    rw [if_neg hf]
    by_cases hi : intPattern (pyStrip value) = true
    · rw [if_pos hi]
      refine ⟨by rw [hf']; rfl, by rw [hi]; rfl, ?_⟩
      intro _ hif
      rw [hif] at hi
      exact absurd hi (by decide)
    · have hi' : intPattern (pyStrip value) = false := bool_not_true hi
      rw [if_neg hi]
      exact ⟨by rw [hf']; rfl, by rw [hi']; rfl, fun _ _ => rfl⟩

/-- Witness for claim C8: a non-numeric cell is returned as the
stripped string. -/
theorem claim_C8_witness :
    smart_convert (strL " xyz ") = CellValue.asStr (pyStrip (strL " xyz ")) :=
  (claim_C8 (strL " xyz ")).2.2 (by decide) (by decide)

/-! ## Claim C5: section state-machine transitions -/

/-- Claim C5: in the header state a line whose trimmed uppercase form
starts with `BEGIN_DATA_FORMAT` enters the data-format state; one
starting with `BEGIN_DATA` but not `BEGIN_DATA_FORMAT` enters the data
state (the longer marker is matched first); and from the data-format
state a `BEGIN_DATA` line closes the format block implicitly and enters
the data state. -/
theorem claim_C5 (st : HFState) (line : Line) :
    (st.in_df = false → st.in_data = false →
      pyStartsWith (strL "BEGIN_DATA_FORMAT") (pyUpper (pyStrip line)) = true →
      stepLine st line = { st with in_df := true }) ∧
    (st.in_df = false → st.in_data = false →
      pyStartsWith (strL "BEGIN_DATA") (pyUpper (pyStrip line)) = true →
      pyStartsWith (strL "BEGIN_DATA_FORMAT") (pyUpper (pyStrip line)) = false →
      stepLine st line = { st with in_data := true }) ∧
    (st.in_df = true → st.in_data = false →
      pyStartsWith (strL "BEGIN_DATA") (pyUpper (pyStrip line)) = true →
      stepLine st line = { st with in_df := false, in_data := true }) := by
  refine ⟨?_, ?_, ?_⟩
  · intro h1 h2 h3
    obtain ⟨c, cs, hu, hc⟩ := pyStartsWith_upper_head 'B' (strL "EGIN_DATA_FORMAT")
      (pyStrip line) h3
    have hguard : (isComment (pyStrip line) || wsOnly (pyStrip line)) = false := by
      rw [hu]
      exact upper_B_not_comment_ws c cs hc
    simp [stepLine, h1, h2, hguard, h3]
  · intro h1 h2 h3 h4
    obtain ⟨c, cs, hu, hc⟩ := pyStartsWith_upper_head 'B' (strL "EGIN_DATA")
      (pyStrip line) h3
    have hguard : (isComment (pyStrip line) || wsOnly (pyStrip line)) = false := by
      rw [hu]
      exact upper_B_not_comment_ws c cs hc
    simp [stepLine, h1, h2, hguard, h3, h4]
  · intro h1 h2 h3
    have hedf : pyStartsWith (strL "END_DATA_FORMAT") (pyUpper (pyStrip line)) = false :=
      pyStartsWith_head_ne 'B' 'E' (strL "EGIN_DATA") (strL "ND_DATA_FORMAT")
        (pyUpper (pyStrip line)) (by decide) h3
    simp [stepLine, h1, h2, hedf, h3]

/-- Witness for claim C5: the three transitions at concrete states and
lines. -/
theorem claim_C5_witness :
    stepLine initHF (strL "begin_data_format CMYK") = { initHF with in_df := true } ∧
    stepLine initHF (strL " BEGIN_DATA ") = { initHF with in_data := true } ∧
    stepLine { initHF with in_df := true } (strL "BEGIN_DATA") =
      { initHF with in_df := false, in_data := true } :=
  ⟨(claim_C5 initHF (strL "begin_data_format CMYK")).1 rfl rfl (by decide),
   (claim_C5 initHF (strL " BEGIN_DATA ")).2.1 rfl rfl (by decide) (by decide),
   (claim_C5 { initHF with in_df := true } (strL "BEGIN_DATA")).2.2 rfl rfl (by decide)⟩

/-! ## Claim C10: key/value lines with an empty value -/

theorem space_not_keychar (c : Char) (h : isPySpace c = true) :
    isKeyChar c = false := by
  have h6 : c = ' ' ∨ c = '\t' ∨ c = '\n' ∨ c = '\r' ∨ c = '\x0b' ∨ c = '\x0c' := by
    simpa [isPySpace, or_assoc] using h
  rcases h6 with rfl | rfl | rfl | rfl | rfl | rfl <;> decide

theorem keychar_not_space (c : Char) (h : isKeyChar c = true) :
    isPySpace c = false := by
  cases hs : isPySpace c
  · rfl
  · rw [space_not_keychar c hs] at h
    exact absurd h (by decide)

theorem kvMatch_key_sep (k w1 w2 : Line) (sep : Char)
    (hk : k ≠ []) (hkc : k.all isKeyChar = true)
    (hw1 : w1.all isPySpace = true) (hw2 : w2.all isPySpace = true)
    (hsep : sep = ':' ∨ sep = '=') :
    kvMatch (k ++ w1 ++ sep :: w2) = some (k, []) := by
  obtain ⟨c, k', rfl⟩ : ∃ c k', k = c :: k' := by
    cases k
    · exact absurd rfl hk
    · exact ⟨_, _, rfl⟩
  rw [List.all_cons, Bool.and_eq_true] at hkc
  have hc : isKeyChar c = true := hkc.1
  have hck' : k'.all isKeyChar = true := hkc.2
  have hcs : isPySpace c = false := keychar_not_space c hc
  have hsepK : isKeyChar sep = false := by
    rcases hsep with rfl | rfl <;> decide
  have hsepS : isPySpace sep = false := by
    rcases hsep with rfl | rfl <;> decide
  have hline : (c :: k') ++ w1 ++ sep :: w2 = c :: (k' ++ (w1 ++ sep :: w2)) := by
    simp
  have ht0 : (w1 ++ sep :: w2).takeWhile isKeyChar = [] := by
    cases w1 with
    | nil => rw [List.nil_append, List.takeWhile_cons, if_neg (by simp [hsepK])]
    | cons d w1' =>
      have hd : isPySpace d = true := by
        rw [List.all_cons, Bool.and_eq_true] at hw1
        exact hw1.1
      rw [List.cons_append, List.takeWhile_cons,
        if_neg (by simp [space_not_keychar d hd])]
  have hd0 : (w1 ++ sep :: w2).dropWhile isKeyChar = w1 ++ sep :: w2 := by
    cases w1 with
    | nil => simp [List.dropWhile_cons, hsepK]
    | cons d w1' =>
      have hd : isPySpace d = true := by
        rw [List.all_cons, Bool.and_eq_true] at hw1
        exact hw1.1
      simp [List.dropWhile_cons, space_not_keychar d hd]
  have htake : (c :: (k' ++ (w1 ++ sep :: w2))).takeWhile isKeyChar = c :: k' := by
    rw [List.takeWhile_cons, if_pos hc, takeWhile_append_of_all isKeyChar _ hck',
      ht0, List.append_nil]
  have hdrop : (c :: (k' ++ (w1 ++ sep :: w2))).dropWhile isKeyChar =
      w1 ++ sep :: w2 := by
    rw [List.dropWhile_cons, if_pos hc, dropWhile_append_of_all isKeyChar _ hck', hd0]
  have hafter : (w1 ++ sep :: w2).dropWhile isPySpace = sep :: w2 := by
    rw [dropWhile_append_of_all isPySpace _ hw1, List.dropWhile_cons,
      if_neg (by simp [hsepS])]
  have hrest : (c :: (k' ++ (w1 ++ sep :: w2))).dropWhile isPySpace =
      c :: (k' ++ (w1 ++ sep :: w2)) := by
    rw [List.dropWhile_cons, if_neg (by simp [hcs])]
  simp only [kvMatch, hline, hrest, htake, hdrop, hafter]
  rcases hsep with rfl | rfl <;> simp [pyStrip_all_space w2 hw2]

/-- Claim C10 counterexample: the line `BEGIN_DATA:` consists of a
valid key (every character is in the key class) immediately followed by
a separator and no value, and it matches the key/value pattern — yet
the parser stores nothing in `descriptive`: the `BEGIN_DATA` section
marker is matched first and the line enters the data section instead. -/
theorem claim_C10_counterexample :
    kvMatch (strL "BEGIN_DATA:") = some (strL "BEGIN_DATA", []) ∧
    (strL "BEGIN_DATA").all isKeyChar = true ∧
    (parse_cgats_text [strL "BEGIN_DATA:"]).descriptive = [] ∧
    (parse_descriptive_and_formats [strL "BEGIN_DATA:"]).in_data = true := by
  decide

/-- Claim C10 (amended): a header-state line made of a valid key,
optional whitespace, a separator (`:` or `=`) and only trailing
whitespace stores the uppercased key with the empty string as value —
provided its trimmed form is not a comment line and does not start with
`BEGIN_DATA` case-insensitively (comment skipping and section markers
take precedence over the key/value pattern). -/
theorem claim_C10_amended (st : HFState) (k w1 w2 : Line) (sep : Char)
    (hdf : st.in_df = false) (hdata : st.in_data = false)
    (hk : k ≠ []) (hkc : k.all isKeyChar = true)
    (hw1 : w1.all isPySpace = true) (hw2 : w2.all isPySpace = true)
    (hsep : sep = ':' ∨ sep = '=')
    (hcm : isComment (pyStrip (k ++ w1 ++ sep :: w2)) = false)
    (hnb : pyStartsWith (strL "BEGIN_DATA")
      (pyUpper (pyStrip (k ++ w1 ++ sep :: w2))) = false) :
    stepLine st (k ++ w1 ++ sep :: w2) =
      { st with descriptive := dictInsert st.descriptive (pyUpper k) [] } := by
  have hkv : kvMatch (k ++ w1 ++ sep :: w2) = some (k, []) :=
    kvMatch_key_sep k w1 w2 sep hk hkc hw1 hw2 hsep
  obtain ⟨c, k', rfl⟩ : ∃ c k', k = c :: k' := by
    cases k
    · exact absurd rfl hk
    · exact ⟨_, _, rfl⟩
  rw [List.all_cons, Bool.and_eq_true] at hkc
  have hcs : isPySpace c = false := keychar_not_space c hkc.1
  have hsepS : isPySpace sep = false := by
    rcases hsep with rfl | rfl <;> decide
  have hline2 : (c :: k') ++ w1 ++ sep :: w2 = c :: (k' ++ w1) ++ sep :: w2 := by
    simp
  have hstrip : pyStrip ((c :: k') ++ w1 ++ sep :: w2) = c :: (k' ++ w1) ++ [sep] := by
    rw [hline2]
    exact pyStrip_shape c (k' ++ w1) sep w2 hcs hsepS hw2
  have hws : wsOnly (pyStrip ((c :: k') ++ w1 ++ sep :: w2)) = false := by
    rw [hstrip]
    simp [wsOnly, hcs]
  have hguard : (isComment (pyStrip ((c :: k') ++ w1 ++ sep :: w2)) ||
      wsOnly (pyStrip ((c :: k') ++ w1 ++ sep :: w2))) = false := by
    rw [hcm, hws]
    rfl
  have happ : strL "BEGIN_DATA" ++ strL "_FORMAT" = strL "BEGIN_DATA_FORMAT" := rfl
  have hbdf : pyStartsWith (strL "BEGIN_DATA_FORMAT")
      (pyUpper (pyStrip ((c :: k') ++ w1 ++ sep :: w2))) = false := by
    cases hb : pyStartsWith (strL "BEGIN_DATA_FORMAT")
        (pyUpper (pyStrip ((c :: k') ++ w1 ++ sep :: w2)))
    · rfl
    · exfalso
      rw [← happ] at hb
      rw [pyStartsWith_append_left _ _ _ hb] at hnb
      exact absurd hnb (by decide)
  have hknospace : ∀ x ∈ c :: k', isPySpace x = false := by
    intro x hx
    rcases List.mem_cons.mp hx with rfl | hx2
    · exact hcs
    · exact keychar_not_space x (List.all_eq_true.mp hkc.2 x hx2)
  simp only [List.cons_append, List.append_assoc] at hcm hws hbdf hnb hkv
  simp [stepLine, hdf, hdata, hcm, hws, hbdf, hnb, hkv,
    pyStrip_no_space (c :: k') hknospace, show pyStrip [] = [] from rfl]

/-- Witness for the amended claim C10: `KEY:` in the initial header
state stores `KEY` with the empty string as its value. -/
theorem claim_C10_witness :
    stepLine initHF (strL "KEY" ++ [] ++ ':' :: []) =
      { initHF with descriptive :=
          dictInsert initHF.descriptive (pyUpper (strL "KEY")) [] } :=
  claim_C10_amended initHF (strL "KEY") [] [] ':' rfl rfl (by decide) (by decide)
    rfl rfl (Or.inl rfl) (by decide) (by decide)

/-! ## Claim C6: data-quality issues only reach the log -/

theorem stepLineLog_fst (st : HFState) (line : Line) :
    (stepLineLog st line).1 = stepLine st line := by
  simp only [stepLineLog, stepLine]
  by_cases g1 : (!st.in_df && !st.in_data &&
      (isComment (pyStrip line) || wsOnly (pyStrip line))) = true
  · rw [if_pos g1, if_pos g1]
  · rw [if_neg g1, if_neg g1]
    by_cases g2 : (!st.in_df && !st.in_data) = true
    · rw [if_pos g2, if_pos g2]
      by_cases g3 : pyStartsWith (strL "BEGIN_DATA_FORMAT")
          (pyUpper (pyStrip line)) = true
      · rw [if_pos g3, if_pos g3]
      · rw [if_neg g3, if_neg g3]
        by_cases g4 : pyStartsWith (strL "BEGIN_DATA")
            (pyUpper (pyStrip line)) = true
        · rw [if_pos g4, if_pos g4]
        · rw [if_neg g4, if_neg g4]
          cases hkv : kvMatch line <;> rfl
    · rw [if_neg g2, if_neg g2]
      by_cases g5 : (st.in_df && !st.in_data) = true
      · rw [if_pos g5, if_pos g5]
        by_cases g6 : pyStartsWith (strL "END_DATA_FORMAT")
            (pyUpper (pyStrip line)) = true
        · rw [if_pos g6, if_pos g6]
        · rw [if_neg g6, if_neg g6]
          by_cases g7 : pyStartsWith (strL "BEGIN_DATA")
              (pyUpper (pyStrip line)) = true
          · rw [if_pos g7, if_pos g7]
          · rw [if_neg g7, if_neg g7]
            by_cases g8 : (!(pyStrip line).isEmpty && !isComment (pyStrip line)) = true
            · rw [if_pos g8, if_pos g8]
            · rw [if_neg g8, if_neg g8]
      · rw [if_neg g5, if_neg g5]
        by_cases g9 : st.in_data = true
        · rw [if_pos g9, if_pos g9]
        · rw [if_neg g9, if_neg g9]

theorem foldl_log_fst (lines : List Line) :
    ∀ (st : HFState) (lg : List LogEvent),
      (lines.foldl (fun acc l =>
        let r := stepLineLog acc.1 l
        (r.1, acc.2 ++ r.2)) (st, lg)).1 = lines.foldl stepLine st := by
  induction lines with
  | nil =>
    intro st lg
    rfl
  | cons l ls ih =>
    intro st lg
    simp only [List.foldl_cons]
    rw [ih, stepLineLog_fst]

theorem parse_descriptive_and_formats_log_fst (lines : List Line) :
    (parse_descriptive_and_formats_log lines).1 =
      parse_descriptive_and_formats lines :=
  foldl_log_fst (iter_nonempty_lines lines) initHF []

theorem inferKeysLog_fst (buf : List Line) :
    (inferKeysLog buf).1 = inferKeys buf := by
  induction buf with
  | nil => rfl
  | cons line rest ih =>
    simp only [inferKeysLog, inferKeys]
    by_cases h : (!(pyStrip line).isEmpty && !isComment (pyStrip line) &&
        !pyStartsWith (strL "END_DATA") (pyUpper (pyStrip line))) = true
    · rw [if_pos h, if_pos h]
    · rw [if_neg h, if_neg h]
      exact ih

theorem parse_rows_log_fst (after_begin_data_lines keys : List Line) :
    (parse_rows_log after_begin_data_lines keys).1 =
      parse_rows after_begin_data_lines keys := by
  induction after_begin_data_lines with
  | nil => rfl
  | cons line rest ih =>
    simp only [parse_rows_log, parse_rows]
    by_cases h1 : (pyStrip line).isEmpty = true
    · rw [if_pos h1, if_pos h1]
      exact ih
    · rw [if_neg h1, if_neg h1]
      by_cases h2 : pyStartsWith (strL "END_DATA") (pyUpper (pyStrip line)) = true
      · rw [if_pos h2, if_pos h2]
      · rw [if_neg h2, if_neg h2]
        by_cases h3 : isComment (pyStrip line) = true
        · rw [if_pos h3, if_pos h3]
          exact ih
        · rw [if_neg h3, if_neg h3]
          rw [ih]

/-- Claim C6: the parser is total and its logging is a pure side
channel: for every input line list the logged parser returns exactly
the result of the pure parser next to its log events, so data-quality
issues (unmatched header lines, row/column mismatches, missing format
keys) never change or abort the returned `ParseResult`. -/
theorem claim_C6 (lines : List Line) :
    (parse_cgats_text_log lines).1 = parse_cgats_text lines := by
  simp only [parse_cgats_text_log, parse_cgats_text,
    parse_descriptive_and_formats_log_fst, inferKeysLog_fst, parse_rows_log_fst]

/-- Witness for claim C9: a data section holding only a comment, a
blank line and `END_DATA` yields empty keys and hence empty rows. -/
theorem claim_C9_witness :
    (parse_cgats_text [strL "BEGIN_DATA", strL "# note", strL "   ",
        strL "END_DATA"]).rows = [] ∧
    ∀ l ∈ (parse_descriptive_and_formats [strL "BEGIN_DATA", strL "# note",
        strL "   ", strL "END_DATA"]).buffer_after_begin_data,
      (pyStrip l).isEmpty = true ∨ isComment (pyStrip l) = true ∨
        pyStartsWith (strL "END_DATA") (pyUpper (pyStrip l)) = true :=
  claim_C9 [strL "BEGIN_DATA", strL "# note", strL "   ", strL "END_DATA"]
    (by decide)
